import Mathlib

/-
Verification of the crowd-audio synthesis core of consensusAV
(generate_audio.py).

Shallow embedding conventions:
- An audio buffer is a list of real PCM samples, full scale normalized to 1;
  duration is the sample count (one sample = one pydub time-unit).
- pydub operations are translated sample-exactly: concatenation appends,
  AudioSegment.silent(n) is n zero samples, overlay is a sample-wise sum
  truncated to the length of the left operand, and a gain of g dB multiplies
  every sample by 10 raised to (g/20).
- Python random draws are externalized: every function that jitters takes a
  stream of draws (a function from call index to a natural number); the draw
  is reduced modulo the randint range, exactly the set of values
  random.randint can return.
- Python float arithmetic is modelled by exact real (or rational) arithmetic.
-/

namespace ConsensusAV

/-- An audio buffer: the ordered PCM samples, full scale = 1. -/
abbrev AudioBuffer := List ℝ

/-- AudioSegment.silent(duration=n): n zero samples. -/
def silent (n : ℕ) : AudioBuffer := List.replicate n 0

/-- random.randint(lo, hi) fed by an external draw: the result always lies in
the closed interval from lo to hi, and every such value is attained. -/
def randint (lo hi draw : ℕ) : ℕ := lo + draw % (hi + 1 - lo)

/-- add_slight_variation (generate_audio.py line 53): random silence of
randint(0, variation_ms) time-units placed before the audio. -/
def add_slight_variation (audio : AudioBuffer) (variation_ms : ℕ) (draw : ℕ) :
    AudioBuffer :=
  silent (randint 0 variation_ms draw) ++ audio

/-- pydub AudioSegment.overlay: sample-wise sum; the result always has the
length of the receiver, a longer overlaid segment being truncated. -/
def overlay (a b : AudioBuffer) : AudioBuffer :=
  List.zipWith (fun x y => x + y) a (b ++ silent (a.length - b.length))

/-- pydub apply_gain (the + and - operators on AudioSegment): a gain of db
decibels multiplies every sample by 10 raised to (db/20). -/
noncomputable def apply_gain (a : AudioBuffer) (db : ℝ) : AudioBuffer :=
  a.map (fun x => x * (10 : ℝ) ^ (db / 20))

/-- Peak amplitude of a buffer (pydub seg.max over full scale 1). -/
noncomputable def peak (a : AudioBuffer) : ℝ :=
  a.foldr (fun x m => max |x| m) 0

/-- Actual layer count (generate_audio.py line 81):
min(int(num_copies ** 0.5), 50). -/
def num_layers (num_copies : ℕ) : ℕ := min (Nat.sqrt num_copies) 50

/-- Loudness gain in dB (generate_audio.py line 86):
10 * math.log10(num_copies). -/
noncomputable def db_increase (num_copies : ℕ) : ℝ :=
  10 * Real.logb 10 num_copies

/-- create_crowd_audio (generate_audio.py lines 62-102), with the
random.randint draws externalized into the stream draws. -/
noncomputable def create_crowd_audio (base_audio : AudioBuffer)
    (num_copies : ℕ) (add_variation : Bool) (draws : ℕ → ℕ) : AudioBuffer :=
  if num_copies = 0 then silent base_audio.length
  else if num_copies = 1 then
    (if add_variation then add_slight_variation base_audio 30 (draws 0)
     else base_audio)
  else
    let result0 :=
      if add_variation then add_slight_variation base_audio 30 (draws 0)
      else base_audio
    let result := (List.range (num_layers num_copies - 1)).foldl
      (fun acc k =>
        let copy :=
          if add_variation then
            add_slight_variation base_audio 30 (draws (k + 1))
          else base_audio
        overlay acc
          (apply_gain copy (-(3 * Real.logb 10 (num_layers num_copies)))))
      result0
    apply_gain result (db_increase num_copies)

/-- The clipping-guard threshold: the linear amplitude of -1 dBFS. -/
noncomputable def clipThreshold : ℝ := (10 : ℝ) ^ (-(1 : ℝ) / 20)

/-- pydub effects.normalize(seg, headroom): if the buffer is all-zero return
it, otherwise scale every sample so the peak lands on -headroom dBFS.
(pydub computes the same factor as a gain in dB; over the exact reals the
composition is this single multiplication.) -/
noncomputable def normalize (a : AudioBuffer) (headroom : ℝ) : AudioBuffer :=
  if peak a = 0 then a
  else a.map (fun x => x * ((10 : ℝ) ^ (-headroom / 20) / peak a))

/-- The pad-to-equal-length and overlay steps of mix_agree_disagree_crowds
(generate_audio.py lines 109-119). -/
def padded_overlay (agree_audio disagree_audio : AudioBuffer) : AudioBuffer :=
  overlay
    (agree_audio ++
      silent (max agree_audio.length disagree_audio.length -
        agree_audio.length))
    (disagree_audio ++
      silent (max agree_audio.length disagree_audio.length -
        disagree_audio.length))

open Classical in
/-- mix_agree_disagree_crowds (generate_audio.py lines 104-125): pad, overlay,
then normalize to -1 dBFS when the peak exceeds -1 dBFS (the condition
max_dBFS > -1 is equivalent, over the reals, to peak > clipThreshold). -/
noncomputable def mix_agree_disagree_crowds
    (agree_audio disagree_audio : AudioBuffer) : AudioBuffer :=
  let mixed := padded_overlay agree_audio disagree_audio
  if clipThreshold < peak mixed then normalize mixed 1 else mixed

/-- NUM_VOICES (generate_audio.py line 18). -/
def NUM_VOICES : ℕ := 100

/-- Python round: round half to even (banker's rounding), the behaviour of
the built-in round on the exactly-represented halves. -/
def pyRound (x : ℚ) : ℤ :=
  if Int.fract x = 1 / 2 then (if 2 ∣ ⌊x⌋ then ⌊x⌋ else ⌊x⌋ + 1)
  else round x

/-- Agree voice count (generate_audio.py lines 140, 142):
round(NUM_VOICES * pct / 100). -/
def agree_count (total : ℕ) (pct : ℚ) : ℤ := pyRound (total * pct / 100)

/-- Disagree voice count (generate_audio.py lines 141, 143):
the total minus the agree count. -/
def disagree_count (total : ℕ) (pct : ℚ) : ℤ :=
  total - agree_count total pct

/-- Number of randint draws one create_crowd_audio call with variation
consumes: none for zero copies, otherwise one per layered copy. -/
def drawsUsed (v : ℕ) : ℕ := if v = 0 then 0 else num_layers v

/-- Advance a draw stream past k consumed draws. -/
def shiftDraws (d : ℕ → ℕ) (k : ℕ) : ℕ → ℕ := fun i => d (k + i)

/-- The per-output guard of the pipeline (generate_audio.py lines 170-178 and
analogues): a crowd when the count is positive, silence of the base duration
otherwise. -/
noncomputable def crowd_or_silent (base : AudioBuffer) (c : ℤ)
    (d : ℕ → ℕ) : AudioBuffer :=
  if 0 < c then create_crowd_audio base c.toNat true d else silent base.length

/-- Draws consumed by crowd_or_silent. -/
def usedDraws (c : ℤ) : ℕ := if 0 < c then drawsUsed c.toNat else 0

/-- The six audio buffers generate_audio_for_issue produces for one record. -/
structure IssueOutputs where
  sciAgree : AudioBuffer
  sciDisagree : AudioBuffer
  sciBoth : AudioBuffer
  pubAgree : AudioBuffer
  pubDisagree : AudioBuffer
  pubBoth : AudioBuffer

/-- The buffer computations of generate_audio_for_issue (generate_audio.py
lines 139-225), in source order of the create_crowd_audio calls, each call
consuming its draws from the single global random stream. The buffers mixed
into the combined outputs are freshly synthesized (lines 192-193, 222-223),
not the buffers exported individually. -/
noncomputable def generate_audio_for_issue_buffers
    (agree_base disagree_base : AudioBuffer)
    (sci_consensus pub_agreement : ℚ) (draws : ℕ → ℕ) : IssueOutputs :=
  let sa := agree_count NUM_VOICES sci_consensus
  let sd := disagree_count NUM_VOICES sci_consensus
  let pa := agree_count NUM_VOICES pub_agreement
  let pd := disagree_count NUM_VOICES pub_agreement
  let k1 := usedDraws sa
  let k2 := k1 + usedDraws sd
  let k3 := k2 + usedDraws sa
  let k4 := k3 + usedDraws sd
  let k5 := k4 + usedDraws pa
  let k6 := k5 + usedDraws pd
  let k7 := k6 + usedDraws pa
  { sciAgree := crowd_or_silent agree_base sa (shiftDraws draws 0)
    sciDisagree := crowd_or_silent disagree_base sd (shiftDraws draws k1)
    sciBoth := mix_agree_disagree_crowds
      (crowd_or_silent agree_base sa (shiftDraws draws k2))
      (crowd_or_silent disagree_base sd (shiftDraws draws k3))
    pubAgree := crowd_or_silent agree_base pa (shiftDraws draws k4)
    pubDisagree := crowd_or_silent disagree_base pd (shiftDraws draws k5)
    pubBoth := mix_agree_disagree_crowds
      (crowd_or_silent agree_base pa (shiftDraws draws k6))
      (crowd_or_silent disagree_base pd (shiftDraws draws k7)) }

/-- Errors that escape a record computation. A malformed numeric field makes
float() raise; nothing in generate_audio_for_issue or main catches it. -/
inductive PipelineError
  | parseError
deriving DecidableEq

/-- One input record together with the externally-determined outcomes of its
side effects: the parse results of its two numeric fields (none = malformed,
float() raises) and whether each of the two TTS calls succeeds. -/
structure IssueRecordInput where
  scientific_consensus : Option ℚ
  public_agreement : Option ℚ
  agreeTTSOk : Bool
  disagreeTTSOk : Bool
  agree_base : AudioBuffer
  disagree_base : AudioBuffer
  draws : ℕ → ℕ

/-- Control flow of generate_audio_for_issue (generate_audio.py lines
127-228): a malformed numeric field raises (escapes as an error); a failed
TTS call returns False (here: ok none); otherwise the six buffers are
produced and True is returned (ok some). -/
noncomputable def generate_audio_for_issue_run (r : IssueRecordInput) :
    Except PipelineError (Option IssueOutputs) :=
  match r.scientific_consensus with
  | none => .error .parseError
  | some sci =>
    match r.public_agreement with
    | none => .error .parseError
    | some pub =>
      if r.agreeTTSOk = false then .ok none
      else if r.disagreeTTSOk = false then .ok none
      else .ok (some (generate_audio_for_issue_buffers
        r.agree_base r.disagree_base sci pub r.draws))

/-- The loop of main (generate_audio.py lines 243-246), accumulating the
success count; an uncaught exception aborts the whole loop. -/
noncomputable def run_batch :
    List IssueRecordInput → ℕ → Except PipelineError ℕ
  | [], acc => .ok acc
  | r :: rs, acc =>
    match generate_audio_for_issue_run r with
    | .error e => .error e
    | .ok res => run_batch rs (acc + (if res.isSome then 1 else 0))

/-- main (generate_audio.py lines 230-258): on normal completion reports the
success count and the total record count; an uncaught exception aborts the
run before any report. -/
noncomputable def main_run (records : List IssueRecordInput) :
    Except PipelineError (ℕ × ℕ) :=
  match run_batch records 0 with
  | .error e => .error e
  | .ok s => .ok (s, records.length)

/-! ### Helper lemmas: lengths -/

theorem length_silent (n : ℕ) : (silent n).length = n := by
  simp [silent]

theorem randint_zero (m draw : ℕ) : randint 0 m draw = draw % (m + 1) := by
  simp [randint]

theorem randint_le (m draw : ℕ) : randint 0 m draw ≤ m := by
  rw [randint_zero]
  have : draw % (m + 1) < m + 1 := Nat.mod_lt _ (Nat.succ_pos m)
  omega

theorem length_add_slight_variation (a : AudioBuffer) (m draw : ℕ) :
    (add_slight_variation a m draw).length = randint 0 m draw + a.length := by
  simp [add_slight_variation, silent]

theorem length_overlay (a b : AudioBuffer) :
    (overlay a b).length = a.length := by
  simp [overlay, silent]
  omega

theorem length_apply_gain (a : AudioBuffer) (db : ℝ) :
    (apply_gain a db).length = a.length := by
  simp [apply_gain]

theorem length_foldl_overlay (l : List ℕ) (init : AudioBuffer)
    (f : ℕ → AudioBuffer) :
    (l.foldl (fun acc k => overlay acc (f k)) init).length = init.length := by
  induction l generalizing init with
  | nil => rfl
  | cons x xs ih => rw [List.foldl_cons, ih, length_overlay]

theorem length_create_crowd_audio_pos (base : AudioBuffer) (v : ℕ)
    (d : ℕ → ℕ) (hv : 0 < v) :
    (create_crowd_audio base v true d).length =
      randint 0 30 (d 0) + base.length := by
  have h0 : v ≠ 0 := by omega
  rcases eq_or_ne v 1 with h1 | h1
  · subst h1
    simp [create_crowd_audio, length_add_slight_variation]
  · rw [create_crowd_audio, if_neg h0, if_neg h1]
    simp only [length_apply_gain, ite_true, eq_self_iff_true]
    rw [length_foldl_overlay, length_add_slight_variation]

theorem length_normalize (a : AudioBuffer) (h : ℝ) :
    (normalize a h).length = a.length := by
  rw [normalize]
  split <;> simp

theorem length_padded_overlay (a b : AudioBuffer) :
    (padded_overlay a b).length = max a.length b.length := by
  rw [padded_overlay, length_overlay]
  simp [silent]

theorem length_mix (a b : AudioBuffer) :
    (mix_agree_disagree_crowds a b).length = max a.length b.length := by
  rw [mix_agree_disagree_crowds]
  split
  · rw [length_normalize, length_padded_overlay]
  · rw [length_padded_overlay]

/-! ### Helper lemmas: peak -/

theorem peak_nonneg (a : AudioBuffer) : 0 ≤ peak a := by
  induction a with
  | nil => exact le_refl 0
  | cons x xs ih =>
    exact le_trans ih (le_max_right _ _)

theorem peak_silent (n : ℕ) : peak (silent n) = 0 := by
  induction n with
  | zero => rfl
  | succ m ih =>
    show max |(0 : ℝ)| (peak (silent m)) = 0
    rw [ih, abs_zero, max_self]

theorem peak_map_mul (a : AudioBuffer) (c : ℝ) (hc : 0 ≤ c) :
    peak (a.map (fun x => x * c)) = peak a * c := by
  induction a with
  | nil => simp [peak]
  | cons x xs ih =>
    show max |x * c| (peak (xs.map (fun x => x * c))) = max |x| (peak xs) * c
    rw [ih, abs_mul, abs_of_nonneg hc, max_mul_of_nonneg _ _ hc]

/-! ### Helper lemmas: Nat.sqrt at concrete values -/

theorem sqrt_eq_exact (n k : ℕ) (h1 : k * k ≤ n)
    (h2 : n < (k + 1) * (k + 1)) : Nat.sqrt n = k := by
  have ha : k ≤ Nat.sqrt n := Nat.le_sqrt.mpr h1
  have hb : Nat.sqrt n < k + 1 := Nat.sqrt_lt.mpr h2
  omega

/-! ### Claims -/

/-- Claim C2: for every virtualSize v > 1 the number of actually layered
copies used by create_crowd_audio equals min(floor(sqrt(v)), 50); the layer
count is monotonically non-decreasing in v, never exceeds 50, and
layerCount(4) = 2, layerCount(100) = 10, layerCount(2500) = 50. -/
theorem claim_C2 :
    (∀ v : ℕ, num_layers v = min (Nat.sqrt v) 50) ∧
    (∀ v1 v2 : ℕ, v1 ≤ v2 → num_layers v1 ≤ num_layers v2) ∧
    (∀ v : ℕ, num_layers v ≤ 50) ∧
    num_layers 4 = 2 ∧ num_layers 100 = 10 ∧ num_layers 2500 = 50 := by
  refine ⟨fun v => rfl, ?_, fun v => min_le_right _ _, ?_, ?_, ?_⟩
  · exact fun v1 v2 h => min_le_min (Nat.sqrt_le_sqrt h) le_rfl
  · simp only [num_layers]
    rw [sqrt_eq_exact 4 2 (by norm_num) (by norm_num)]
    omega
  · simp only [num_layers]
    rw [sqrt_eq_exact 100 10 (by norm_num) (by norm_num)]
    omega
  · simp only [num_layers]
    rw [sqrt_eq_exact 2500 50 (by norm_num) (by norm_num)]
    omega

/-- Witness for claim C2 at v1 = 4, v2 = 100. -/
theorem claim_C2_witness : 4 ≤ 100 ∧ num_layers 4 ≤ num_layers 100 :=
  ⟨by norm_num, claim_C2.2.1 4 100 (by norm_num)⟩

/-- Claim C4: for every percentage p in the closed interval from 0 to 100 and
total voice population, agreeCount = round(total * p / 100) and
disagreeCount = total - agreeCount sum to the total exactly. The pipeline
computes both the scientific and the public counts of every record with
these same two functions. -/
theorem claim_C4 (total : ℕ) (pct : ℚ) (h0 : 0 ≤ pct) (h1 : pct ≤ 100) :
    agree_count total pct + disagree_count total pct = total := by
  rw [disagree_count]
  ring

/-- Witness for claim C4 at total = 100, pct = 97. -/
theorem claim_C4_witness :
    (0 : ℚ) ≤ 97 ∧ (97 : ℚ) ≤ 100 ∧
      agree_count 100 97 + disagree_count 100 97 = 100 :=
  ⟨by norm_num, by norm_num, claim_C4 100 97 (by norm_num) (by norm_num)⟩

/-- Claim C5: mix_agree_disagree_crowds pads the shorter input with trailing
silence, so its output duration is the maximum of the input durations. -/
theorem claim_C5 (a b : AudioBuffer) :
    (mix_agree_disagree_crowds a b).length = max a.length b.length :=
  length_mix a b

/-- Claim C8: create_crowd_audio with zero copies returns, regardless of the
jitter flag, silence whose duration equals the duration of the base buffer
(peak amplitude 0). -/
theorem claim_C8 (base : AudioBuffer) (jitter : Bool) (d : ℕ → ℕ) :
    create_crowd_audio base 0 jitter d = silent base.length ∧
    (create_crowd_audio base 0 jitter d).length = base.length ∧
    peak (create_crowd_audio base 0 jitter d) = 0 := by
  have h : create_crowd_audio base 0 jitter d = silent base.length := by
    simp [create_crowd_audio]
  exact ⟨h, by rw [h, length_silent], by rw [h, peak_silent]⟩

/-- Claim C9: create_crowd_audio with one copy and jitter disabled returns
the base buffer sample-identical; with jitter enabled it returns the base
preceded by a random silence of some length in the interval from 0 to 30
time-units, and every length in that interval is attained by some draw. -/
theorem claim_C9 (base : AudioBuffer) (d : ℕ → ℕ) :
    create_crowd_audio base 1 false d = base ∧
    (∃ k, k ≤ 30 ∧ create_crowd_audio base 1 true d = silent k ++ base) ∧
    (∀ k, k ≤ 30 → ∃ d2 : ℕ → ℕ,
      create_crowd_audio base 1 true d2 = silent k ++ base) := by
  refine ⟨by simp [create_crowd_audio],
    ⟨randint 0 30 (d 0), randint_le 30 (d 0),
      by simp [create_crowd_audio, add_slight_variation]⟩, ?_⟩
  intro k hk
  refine ⟨fun _ => k, ?_⟩
  simp only [create_crowd_audio, add_slight_variation, randint_zero]
  norm_num
  rw [Nat.mod_eq_of_lt (by omega)]

/-- Witness for claim C9 at pre-silence length 5. -/
theorem claim_C9_witness :
    5 ≤ 30 ∧ ∃ d2 : ℕ → ℕ,
      create_crowd_audio [(1 : ℝ)] 1 true d2 = silent 5 ++ [(1 : ℝ)] :=
  ⟨by norm_num, (claim_C9 [(1 : ℝ)] (fun i => i)).2.2 5 (by norm_num)⟩

/-- Claim C10: for virtualSize v > 1 with jitter enabled, the output duration
equals the duration of the first jittered copy (the base duration plus that
first random pre-silence), and overlaying never extends the accumulator: the
overlay result always keeps the length of its left operand, trailing samples
of a longer layer being discarded. -/
theorem claim_C10 (base : AudioBuffer) (v : ℕ) (d : ℕ → ℕ) (hv : 1 < v) :
    (create_crowd_audio base v true d).length =
      randint 0 30 (d 0) + base.length ∧
    (∀ a b : AudioBuffer, (overlay a b).length = a.length) :=
  ⟨length_create_crowd_audio_pos base v d (by omega), length_overlay⟩

/-- Witness for claim C10 at v = 2. -/
theorem claim_C10_witness :
    1 < 2 ∧ (create_crowd_audio [(1 : ℝ)] 2 true (fun i => i)).length =
      randint 0 30 ((fun i : ℕ => i) 0) + [(1 : ℝ)].length :=
  ⟨by norm_num, (claim_C10 [(1 : ℝ)] 2 (fun i => i) (by norm_num)).1⟩

/-! ### Claim C1 -/

/-- The layering construction as the spec words it: one jittered copy of the
base as accumulator; the remaining L - 1 freshly jittered copies, each
attenuated by 3*log10(L) dB, overlaid in turn onto the accumulator; finally
the full target gain of 10*log10(virtualSize) dB applied to the result. -/
noncomputable def synthesizeSpecLayered (base : AudioBuffer) (v : ℕ)
    (d : ℕ → ℕ) : AudioBuffer :=
  apply_gain
    (((List.range (num_layers v - 1)).map
        (fun k => apply_gain (add_slight_variation base 30 (d (k + 1)))
          (-(3 * Real.logb 10 (num_layers v))))).foldl overlay
      (add_slight_variation base 30 (d 0)))
    (db_increase v)

/-- Claim C1: for every base buffer and v > 1, create_crowd_audio builds its
result from one jittered copy as accumulator, L - 1 further jittered copies
each attenuated by 3*log10(L) dB overlaid onto it, and a final gain of
exactly 10*log10(v) dB; consequently for v1 < v2 (both > 1) the applied
gains differ by exactly 10*log10(v2/v1) dB. -/
theorem claim_C1 (base : AudioBuffer) (v : ℕ) (d : ℕ → ℕ) (v1 v2 : ℕ)
    (hv : 1 < v) (h1 : 1 < v1) (h12 : v1 < v2) :
    create_crowd_audio base v true d = synthesizeSpecLayered base v d ∧
    db_increase v2 - db_increase v1 =
      10 * Real.logb 10 ((v2 : ℝ) / (v1 : ℝ)) := by
  constructor
  · have h0 : v ≠ 0 := by omega
    have hne1 : v ≠ 1 := by omega
    rw [create_crowd_audio, if_neg h0, if_neg hne1, synthesizeSpecLayered,
      List.foldl_map]
    norm_num
  · have hv1 : (v1 : ℝ) ≠ 0 := Nat.cast_ne_zero.mpr (by omega)
    have hv2 : (v2 : ℝ) ≠ 0 := Nat.cast_ne_zero.mpr (by omega)
    rw [Real.logb_div hv2 hv1, db_increase, db_increase]
    ring

/-- Witness for claim C1 at v = 2, v1 = 2, v2 = 4. -/
theorem claim_C1_witness :
    1 < 2 ∧ 2 < 4 ∧
      (create_crowd_audio [(1 : ℝ)] 2 true (fun i => i) =
        synthesizeSpecLayered [(1 : ℝ)] 2 (fun i => i) ∧
      db_increase 4 - db_increase 2 =
        10 * Real.logb 10 ((4 : ℝ) / (2 : ℝ))) :=
  ⟨by norm_num, by norm_num,
    claim_C1 [(1 : ℝ)] 2 (fun i => i) 2 4 (by norm_num) (by norm_num)
      (by norm_num)⟩

/-! ### Claim C3 -/

theorem clipThreshold_pos : 0 < clipThreshold :=
  Real.rpow_pos_of_pos (by norm_num) _

theorem clipThreshold_le_one : clipThreshold ≤ 1 :=
  Real.rpow_le_one_of_one_le_of_nonpos (by norm_num) (by norm_num)

theorem peak_normalize_one (a : AudioBuffer) (hp : 0 < peak a) :
    peak (normalize a 1) = clipThreshold := by
  rw [normalize, if_neg (ne_of_gt hp)]
  have hc : (0 : ℝ) ≤ clipThreshold / peak a :=
    le_of_lt (div_pos clipThreshold_pos hp)
  have h2 : peak (a.map fun x => x * (clipThreshold / peak a)) =
      clipThreshold := by
    rw [peak_map_mul a _ hc, mul_comm, div_mul_cancel₀ _ (ne_of_gt hp)]
  exact h2

/-- Claim C3: the peak of mix_agree_disagree_crowds is always at most
-1 dBFS (linear amplitude clipThreshold); when the padded overlay already
peaks above -1 dBFS the whole buffer is normalized so its peak sits exactly
at -1 dBFS, and otherwise the overlaid sum is returned unmodified. -/
theorem claim_C3 (a b : AudioBuffer) :
    peak (mix_agree_disagree_crowds a b) ≤ clipThreshold ∧
    (clipThreshold < peak (padded_overlay a b) →
      peak (mix_agree_disagree_crowds a b) = clipThreshold) ∧
    (peak (padded_overlay a b) ≤ clipThreshold →
      mix_agree_disagree_crowds a b = padded_overlay a b) := by
  by_cases h : clipThreshold < peak (padded_overlay a b)
  · have hmix : mix_agree_disagree_crowds a b
        = normalize (padded_overlay a b) 1 := by
      simp only [mix_agree_disagree_crowds]
      rw [if_pos h]
    have hp : 0 < peak (padded_overlay a b) := lt_trans clipThreshold_pos h
    have hpeak : peak (mix_agree_disagree_crowds a b) = clipThreshold := by
      rw [hmix, peak_normalize_one _ hp]
    exact ⟨le_of_eq hpeak, fun _ => hpeak,
      fun hle => absurd h (not_lt.mpr hle)⟩
  · have hmix : mix_agree_disagree_crowds a b = padded_overlay a b := by
      simp only [mix_agree_disagree_crowds]
      rw [if_neg h]
    exact ⟨by rw [hmix]; exact not_lt.mp h, fun hlt => absurd hlt h,
      fun _ => hmix⟩

/-- Witness for claim C3: two full-scale one-sample buffers overlay to peak
2, above the threshold, and the mix is normalized to exactly -1 dBFS. -/
theorem claim_C3_witness :
    clipThreshold < peak (padded_overlay [(1 : ℝ)] [(1 : ℝ)]) ∧
      peak (mix_agree_disagree_crowds [(1 : ℝ)] [(1 : ℝ)]) = clipThreshold := by
  have hpo : peak (padded_overlay [(1 : ℝ)] [(1 : ℝ)]) = 2 := by
    norm_num [padded_overlay, overlay, silent, peak]
  have h : clipThreshold < peak (padded_overlay [(1 : ℝ)] [(1 : ℝ)]) := by
    rw [hpo]
    exact lt_of_le_of_lt clipThreshold_le_one (by norm_num)
  exact ⟨h, (claim_C3 [(1 : ℝ)] [(1 : ℝ)]).2.1 h⟩

/-! ### Claim C6 -/

theorem pyRound_int (n : ℤ) : pyRound (n : ℚ) = n := by
  rw [pyRound, Int.fract_intCast]
  norm_num

theorem agree_count_97 : agree_count NUM_VOICES 97 = 97 := by
  have h : ((NUM_VOICES : ℕ) : ℚ) * 97 / 100 = ((97 : ℤ) : ℚ) := by
    norm_num [NUM_VOICES]
  rw [agree_count, h, pyRound_int]

theorem disagree_count_97 : disagree_count NUM_VOICES 97 = 3 := by
  rw [disagree_count, agree_count_97]
  norm_num [NUM_VOICES]

theorem usedDraws_97 : usedDraws (97 : ℤ) = 9 := by
  have ht : (97 : ℤ).toNat = 97 := rfl
  rw [usedDraws, if_pos (by norm_num : (0 : ℤ) < 97), ht, drawsUsed,
    if_neg (by norm_num), num_layers,
    sqrt_eq_exact 97 9 (by norm_num) (by norm_num)]
  omega

theorem usedDraws_3 : usedDraws (3 : ℤ) = 1 := by
  have ht : (3 : ℤ).toNat = 3 := rfl
  rw [usedDraws, if_pos (by norm_num : (0 : ℤ) < 3), ht, drawsUsed,
    if_neg (by norm_num), num_layers,
    sqrt_eq_exact 3 1 (by norm_num) (by norm_num)]
  omega

theorem length_crowd_or_silent_pos (base : AudioBuffer) (c : ℤ) (d : ℕ → ℕ)
    (hc : 0 < c) :
    (crowd_or_silent base c d).length = randint 0 30 (d 0) + base.length := by
  rw [crowd_or_silent, if_pos hc]
  exact length_create_crowd_audio_pos base c.toNat d (by omega)

/-- Counterexample to claim C6: with one-sample base utterances, percentages
97 and 50, and the draw stream 0, 1, 2, ..., the exported scientific
combined buffer has 20 samples while the mix of the two individually
exported scientific buffers has only 10 samples. The combined output is
therefore NOT the mix of the same pair of buffers that was exported: the
pipeline synthesizes a fresh pair for the mix. -/
theorem claim_C6_counterexample :
    (generate_audio_for_issue_buffers [(1 : ℝ)] [(1 : ℝ)] 97 50
        (fun i => i)).sciBoth ≠
      mix_agree_disagree_crowds
        (generate_audio_for_issue_buffers [(1 : ℝ)] [(1 : ℝ)] 97 50
          (fun i => i)).sciAgree
        (generate_audio_for_issue_buffers [(1 : ℝ)] [(1 : ℝ)] 97 50
          (fun i => i)).sciDisagree := by
  intro heq
  have h1l : (generate_audio_for_issue_buffers [(1 : ℝ)] [(1 : ℝ)] 97 50
      (fun i => i)).sciAgree.length = 1 := by
    simp only [generate_audio_for_issue_buffers]
    rw [agree_count_97, length_crowd_or_silent_pos _ _ _ (by norm_num)]
    simp [shiftDraws, randint_zero]
  have h2l : (generate_audio_for_issue_buffers [(1 : ℝ)] [(1 : ℝ)] 97 50
      (fun i => i)).sciDisagree.length = 10 := by
    simp only [generate_audio_for_issue_buffers]
    rw [agree_count_97, disagree_count_97, usedDraws_97,
      length_crowd_or_silent_pos _ _ _ (by norm_num)]
    simp [shiftDraws, randint_zero]
  have h3l : (generate_audio_for_issue_buffers [(1 : ℝ)] [(1 : ℝ)] 97 50
      (fun i => i)).sciBoth.length = 20 := by
    simp only [generate_audio_for_issue_buffers]
    rw [length_mix, agree_count_97, disagree_count_97, usedDraws_97,
      usedDraws_3, length_crowd_or_silent_pos _ _ _ (by norm_num),
      length_crowd_or_silent_pos _ _ _ (by norm_num)]
    simp [shiftDraws, randint_zero]
  have hlen := congrArg List.length heq
  rw [h3l, length_mix, h1l, h2l] at hlen
  norm_num at hlen

/-- Claim C6 (amended): per record and population the pipeline synthesizes
one agree-crowd and one disagree-crowd buffer for individual export, and
then a second, freshly synthesized agree/disagree pair further along the
random stream; the exported combined output is the mix of that fresh pair,
not of the exported pair (eight synthesize calls per record when all four
counts are positive). -/
theorem claim_C6_amended (agree_base disagree_base : AudioBuffer)
    (sp pp : ℚ) (draws : ℕ → ℕ) :
    (generate_audio_for_issue_buffers agree_base disagree_base sp pp
        draws).sciAgree =
      crowd_or_silent agree_base (agree_count NUM_VOICES sp)
        (shiftDraws draws 0) ∧
    (generate_audio_for_issue_buffers agree_base disagree_base sp pp
        draws).sciDisagree =
      crowd_or_silent disagree_base (disagree_count NUM_VOICES sp)
        (shiftDraws draws (usedDraws (agree_count NUM_VOICES sp))) ∧
    (generate_audio_for_issue_buffers agree_base disagree_base sp pp
        draws).sciBoth =
      mix_agree_disagree_crowds
        (crowd_or_silent agree_base (agree_count NUM_VOICES sp)
          (shiftDraws draws
            (usedDraws (agree_count NUM_VOICES sp) +
              usedDraws (disagree_count NUM_VOICES sp))))
        (crowd_or_silent disagree_base (disagree_count NUM_VOICES sp)
          (shiftDraws draws
            (usedDraws (agree_count NUM_VOICES sp) +
              usedDraws (disagree_count NUM_VOICES sp) +
              usedDraws (agree_count NUM_VOICES sp)))) ∧
    (generate_audio_for_issue_buffers agree_base disagree_base sp pp
        draws).pubAgree =
      crowd_or_silent agree_base (agree_count NUM_VOICES pp)
        (shiftDraws draws
          (usedDraws (agree_count NUM_VOICES sp) +
            usedDraws (disagree_count NUM_VOICES sp) +
            usedDraws (agree_count NUM_VOICES sp) +
            usedDraws (disagree_count NUM_VOICES sp))) ∧
    (generate_audio_for_issue_buffers agree_base disagree_base sp pp
        draws).pubDisagree =
      crowd_or_silent disagree_base (disagree_count NUM_VOICES pp)
        (shiftDraws draws
          (usedDraws (agree_count NUM_VOICES sp) +
            usedDraws (disagree_count NUM_VOICES sp) +
            usedDraws (agree_count NUM_VOICES sp) +
            usedDraws (disagree_count NUM_VOICES sp) +
            usedDraws (agree_count NUM_VOICES pp))) ∧
    (generate_audio_for_issue_buffers agree_base disagree_base sp pp
        draws).pubBoth =
      mix_agree_disagree_crowds
        (crowd_or_silent agree_base (agree_count NUM_VOICES pp)
          (shiftDraws draws
            (usedDraws (agree_count NUM_VOICES sp) +
              usedDraws (disagree_count NUM_VOICES sp) +
              usedDraws (agree_count NUM_VOICES sp) +
              usedDraws (disagree_count NUM_VOICES sp) +
              usedDraws (agree_count NUM_VOICES pp) +
              usedDraws (disagree_count NUM_VOICES pp))))
        (crowd_or_silent disagree_base (disagree_count NUM_VOICES pp)
          (shiftDraws draws
            (usedDraws (agree_count NUM_VOICES sp) +
              usedDraws (disagree_count NUM_VOICES sp) +
              usedDraws (agree_count NUM_VOICES sp) +
              usedDraws (disagree_count NUM_VOICES sp) +
              usedDraws (agree_count NUM_VOICES pp) +
              usedDraws (disagree_count NUM_VOICES pp) +
              usedDraws (agree_count NUM_VOICES pp)))) :=
  ⟨rfl, rfl, rfl, rfl, rfl, rfl⟩

/-! ### Claim C7 -/

theorem run_ok_of_parseable (r : IssueRecordInput)
    (hs : r.scientific_consensus.isSome)
    (hp : r.public_agreement.isSome) :
    ∃ o, generate_audio_for_issue_run r = .ok o := by
  obtain ⟨sci, hsci⟩ := Option.isSome_iff_exists.mp hs
  obtain ⟨pub, hpub⟩ := Option.isSome_iff_exists.mp hp
  simp only [generate_audio_for_issue_run, hsci, hpub]
  split
  · exact ⟨none, rfl⟩
  · split
    · exact ⟨none, rfl⟩
    · exact ⟨some _, rfl⟩

theorem run_batch_ok (records : List IssueRecordInput) :
    ∀ acc : ℕ,
    (∀ r ∈ records, r.scientific_consensus.isSome ∧
      r.public_agreement.isSome) →
    ∃ s, run_batch records acc = .ok s ∧ s ≤ acc + records.length := by
  induction records with
  | nil =>
    intro acc _
    exact ⟨acc, rfl, by omega⟩
  | cons r rs ih =>
    intro acc h
    obtain ⟨hs, hp⟩ := h r (List.mem_cons_self r rs)
    obtain ⟨o, ho⟩ := run_ok_of_parseable r hs hp
    have hrest : ∀ q ∈ rs, q.scientific_consensus.isSome ∧
        q.public_agreement.isSome :=
      fun q hq => h q (List.mem_cons_of_mem r hq)
    obtain ⟨s, hres, hle⟩ := ih (acc + if o.isSome then 1 else 0) hrest
    refine ⟨s, ?_, ?_⟩
    · simp only [run_batch, ho]
      exact hres
    · have hone : (if o.isSome then 1 else 0) ≤ 1 := by split <;> omega
      simp only [List.length_cons]
      omega

theorem run_err_of_malformed (r : IssueRecordInput)
    (hr : r.scientific_consensus = none ∨ r.public_agreement = none) :
    generate_audio_for_issue_run r = .error .parseError := by
  rcases hr with h | h
  · simp only [generate_audio_for_issue_run, h]
  · cases hs : r.scientific_consensus with
    | none => simp only [generate_audio_for_issue_run, hs]
    | some sci => simp only [generate_audio_for_issue_run, hs, h]

theorem run_batch_err (pre : List IssueRecordInput) :
    ∀ acc : ℕ, ∀ post : List IssueRecordInput, ∀ r : IssueRecordInput,
    (r.scientific_consensus = none ∨ r.public_agreement = none) →
    (∀ q ∈ pre, q.scientific_consensus.isSome ∧
      q.public_agreement.isSome) →
    run_batch (pre ++ r :: post) acc = .error .parseError := by
  induction pre with
  | nil =>
    intro acc post r hr _
    simp only [List.nil_append, run_batch, run_err_of_malformed r hr]
  | cons q qs ih =>
    intro acc post r hr hq
    obtain ⟨hs, hp⟩ := hq q (List.mem_cons_self q qs)
    obtain ⟨o, ho⟩ := run_ok_of_parseable q hs hp
    simp only [List.cons_append, run_batch, ho]
    exact ih _ post r hr (fun x hx => hq x (List.mem_cons_of_mem q hx))

/-- Counterexample to claim C7: a batch of a well-formed record followed by
a record whose scientific percentage field is malformed makes the whole run
abort with the uncaught parse error; no final success/total count is
reported and the remaining records are not processed. -/
theorem claim_C7_counterexample :
    main_run
      [⟨some 97, some 50, true, true, [(1 : ℝ)], [(1 : ℝ)], fun i => i⟩,
       ⟨none, some 50, true, true, [(1 : ℝ)], [(1 : ℝ)], fun i => i⟩] =
      .error .parseError := by
  have h := run_batch_err
    [⟨some 97, some 50, true, true, [(1 : ℝ)], [(1 : ℝ)], fun i => i⟩] 0
    [] ⟨none, some 50, true, true, [(1 : ℝ)], [(1 : ℝ)], fun i => i⟩
    (Or.inl rfl)
    (by intro q hq
        simp only [List.mem_singleton] at hq
        subst hq
        exact ⟨rfl, rfl⟩)
  rw [main_run]
  rw [List.singleton_append] at h
  rw [h]

/-- Claim C7 (amended): a record either of whose numeric percentage fields
is malformed raises an uncaught error that aborts the entire run, so no
success/total count is reported; when every record parses, the run always
completes and reports the success count over the total record count (TTS
failures only skip their own record). -/
theorem claim_C7_amended :
    (∀ records : List IssueRecordInput,
      (∀ r ∈ records, r.scientific_consensus.isSome ∧
        r.public_agreement.isSome) →
      ∃ s, main_run records = .ok (s, records.length) ∧
        s ≤ records.length) ∧
    (∀ pre post : List IssueRecordInput, ∀ r : IssueRecordInput,
      (r.scientific_consensus = none ∨ r.public_agreement = none) →
      (∀ q ∈ pre, q.scientific_consensus.isSome ∧
        q.public_agreement.isSome) →
      main_run (pre ++ r :: post) = .error .parseError) := by
  constructor
  · intro records h
    obtain ⟨s, hs, hle⟩ := run_batch_ok records 0 h
    refine ⟨s, ?_, by omega⟩
    simp only [main_run, hs]
  · intro pre post r hr hq
    simp only [main_run, run_batch_err pre 0 post r hr hq]

/-- Witness for claim C7 (amended): a single well-formed record completes
normally and reports the success/total count. -/
theorem claim_C7_amended_witness :
    (∀ r ∈ [(⟨some 97, some 50, true, true, [(1 : ℝ)], [(1 : ℝ)],
        fun i => i⟩ : IssueRecordInput)],
      r.scientific_consensus.isSome ∧ r.public_agreement.isSome) ∧
    ∃ s, main_run [(⟨some 97, some 50, true, true, [(1 : ℝ)], [(1 : ℝ)],
        fun i => i⟩ : IssueRecordInput)] = .ok (s, 1) ∧ s ≤ 1 := by
  have hmem : ∀ r ∈ [(⟨some 97, some 50, true, true, [(1 : ℝ)], [(1 : ℝ)],
      fun i => i⟩ : IssueRecordInput)],
      r.scientific_consensus.isSome ∧ r.public_agreement.isSome := by
    intro r hr
    simp only [List.mem_singleton] at hr
    subst hr
    exact ⟨rfl, rfl⟩
  have h := claim_C7_amended.1
    [(⟨some 97, some 50, true, true, [(1 : ℝ)], [(1 : ℝ)],
      fun i => i⟩ : IssueRecordInput)] hmem
  refine ⟨hmem, ?_⟩
  simpa using h

end ConsensusAV
